import Mathlib

/-!
Verification development for the hall-management booking backend
(`backend/models/Booking.js`, `backend/controllers/hallController.js`
[booking part], `backend/routes/bookings.js`).

Shallow embedding conventions:
* `HH:MM` time strings are represented by their minutes-since-midnight
  value (a `Nat`); the source converts every time string to this value
  via `split(':')` before any comparison, and the `HH:MM` regex on the
  schema corresponds to the bound `< 1440`.
* Mongo `ObjectId`s for halls, users and bookings are `Nat`s; the
  database is a `List` of records; `findById` is `List.find?` on the id.
* JS falsiness is modelled explicitly: a missing-or-empty string is
  `strFalsy`, a missing-or-zero number is `optNatTruthy = false`.
* Strings are assumed pre-trimmed (the schema `trim` option); schema
  string/number validators that the claims depend on are modelled in
  `validateDoc` / `validUpdate`; descriptive fields with no influence on
  the booking control flow (hall name, building, images, timestamps
  `createdAt`/`updatedAt`) are omitted.
* Assigning `undefined` to a document field in an update is modelled as
  clearing the field.
* The clock is passed explicitly: `today` (start of current day, for the
  "date not in the past" validator) and `now` (for `Date.now()`).
-/

namespace HallMgmt

/-- Booking status enum of `Booking.js` (`status.enum`). -/
inductive BStatus
  | pending
  | approved
  | rejected
  | cancelled
deriving DecidableEq, Repr

/-- Caller role from the auth middleware (`admin` or `faculty`). -/
inductive Role
  | admin
  | faculty
deriving DecidableEq, Repr

/-- Event type enum of `Booking.js` (`eventType.enum`). -/
inductive EventType
  | lecture
  | seminar
  | workshop
  | meeting
  | exam
  | event
  | other
deriving DecidableEq, Repr

/-- A Booking document (`Booking.js` schema).  Times are minutes since
midnight; `date` is a day-granularity calendar date. -/
structure Booking where
  id : Nat
  hall : Nat
  bookedBy : Nat
  date : Nat
  startTime : Nat
  endTime : Nat
  purpose : String
  eventType : EventType
  expectedAttendees : Option Nat
  notes : Option String
  status : BStatus
  approvedBy : Option Nat
  approvalDate : Option Nat
  rejectionReason : Option String
deriving DecidableEq, Repr

/-- A Hall document (`Hall.js`), restricted to the fields that the
booking control flow reads (`capacity`, `isAvailable`). -/
structure Hall where
  id : Nat
  capacity : Nat
  isAvailable : Bool
deriving DecidableEq, Repr

/-- Authenticated caller (`req.user` as set by the `protect` middleware). -/
structure UserCtx where
  id : Nat
  role : Role
deriving DecidableEq, Repr

/-- The persistent store: the halls and bookings collections. -/
structure St where
  halls : List Hall
  bookings : List Booking
deriving DecidableEq, Repr

/-- `HH:MM` → minutes since midnight, as computed by
`start[0] * 60 + start[1]` in the source. -/
def hmmin (h m : Nat) : Nat := h * 60 + m

/-- JS falsiness of an optional string (`!s`): missing or empty. -/
def strFalsy : Option String → Bool
  | none => true
  | some s => s.isEmpty

/-- JS truthiness of an optional number (`!!n`): present and nonzero. -/
def optNatTruthy : Option Nat → Bool
  | none => false
  | some n => n != 0

/-- `Hall.findById`. -/
def findHall (halls : List Hall) (i : Nat) : Option Hall :=
  halls.find? (fun h => h.id == i)

/-- `Booking.findById`. -/
def findBooking (bs : List Booking) (i : Nat) : Option Booking :=
  bs.find? (fun b => b.id == i)

/-- The status filter of `checkConflict`: `status ∈ {pending, approved}`. -/
def isActive (b : Booking) : Bool :=
  b.status == .pending || b.status == .approved

/-- The `_id ≠ excludeBookingId` filter of `checkConflict`, applied only
when an exclusion id is supplied (`if (excludeBookingId)`). -/
def notExcluded (excl : Option Nat) (b : Booking) : Bool :=
  match excl with
  | some i => b.id != i
  | none => true

/-- The three explicit overlap cases of `checkConflict` (lines 144-148 of
`Booking.js`): proposed start inside candidate, proposed end inside
candidate, proposed interval spanning the candidate. -/
def overlap3 (s1 e1 s2 e2 : Nat) : Bool :=
  (decide (s2 ≤ s1) && decide (s1 < e2)) ||
  (decide (s2 < e1) && decide (e1 ≤ e2)) ||
  (decide (s1 ≤ s2) && decide (e2 ≤ e1))

/-- `bookingSchema.statics.checkConflict(hallId, date, startTime, endTime,
excludeBookingId)`: fetch the hall's same-date bookings with status
pending/approved (minus the excluded id) and report whether any of the
three overlap cases holds against one of them. -/
def checkConflict (bs : List Booking) (hallId dt s e : Nat)
    (excl : Option Nat) : Bool :=
  let candidates := bs.filter (fun b =>
    b.hall == hallId && b.date == dt && isActive b && notExcluded excl b)
  candidates.any (fun b => overlap3 s e b.startTime b.endTime)

/-- The half-open interval overlap predicate of the spec:
`[s1,e1)` and `[s2,e2)` meet iff `s1 < e2 ∧ s2 < e1`. -/
def halfOpenOverlap (s1 e1 s2 e2 : Nat) : Prop :=
  s1 < e2 ∧ s2 < e1

instance (s1 e1 s2 e2 : Nat) : Decidable (halfOpenOverlap s1 e1 s2 e2) := by
  unfold halfOpenOverlap; infer_instance

/-- For proper intervals (`end > start` on both sides) the source's three
boundary cases coincide with the half-open overlap test. -/
lemma overlap3_eq_halfOpen {s1 e1 s2 e2 : Nat} (h1 : s1 < e1) (h2 : s2 < e2) :
    overlap3 s1 e1 s2 e2 = true ↔ halfOpenOverlap s1 e1 s2 e2 := by
  simp only [overlap3, halfOpenOverlap, Bool.or_eq_true, Bool.and_eq_true,
    decide_eq_true_eq]
  omega

/-- One direction needs no properness at all: if none of the three cases
holds, the intervals do not meet under half-open semantics. -/
lemma overlap3_false_not_halfOpen {s1 e1 s2 e2 : Nat}
    (h : overlap3 s1 e1 s2 e2 = false) : ¬ halfOpenOverlap s1 e1 s2 e2 := by
  simp only [overlap3, halfOpenOverlap, Bool.or_eq_false_iff,
    Bool.and_eq_false_iff, decide_eq_false_iff_not, Bool.and_eq_false_imp,
    decide_eq_true_eq] at h ⊢
  omega

/-- Controller/route outcomes, one constructor per distinct response the
source can produce on the booking endpoints. -/
inductive Outcome
  | created
  | ok
  | okDeleted
  | notFound
  | forbidden
  | missingFields
  | hallNotAvailable
  | capacityExceeded
  | conflict
  | alreadyApproved
  | alreadyRejected
  | alreadyCancelled
  | cancelledApprove
  | cancelledReject
  | cannotUpdateApproved
  | missingRejectionReason
  | validationError
  | serverError
deriving DecidableEq, Repr

/-- The HTTP status the source attaches to each outcome. -/
def httpStatus : Outcome → Nat
  | .created => 201
  | .ok => 200
  | .okDeleted => 200
  | .notFound => 404
  | .forbidden => 403
  | .missingFields => 400
  | .hallNotAvailable => 400
  | .capacityExceeded => 400
  | .conflict => 409
  | .alreadyApproved => 400
  | .alreadyRejected => 400
  | .alreadyCancelled => 400
  | .cancelledApprove => 400
  | .cancelledReject => 400
  | .cannotUpdateApproved => 400
  | .missingRejectionReason => 400
  | .validationError => 400
  | .serverError => 500

/-- The outcomes the spec's `ValidationFailed` error kind covers:
field-level constraint violations reported with status 400. -/
def isValidationFailed : Outcome → Bool
  | .missingFields => true
  | .hallNotAvailable => true
  | .capacityExceeded => true
  | .missingRejectionReason => true
  | .validationError => true
  | _ => false

/-- The outcomes the spec's `InvalidTransition` error kind covers:
approve/reject/cancel refused because of the booking's current state. -/
def isInvalidTransition : Outcome → Bool
  | .alreadyApproved => true
  | .alreadyRejected => true
  | .alreadyCancelled => true
  | .cancelledApprove => true
  | .cancelledReject => true
  | _ => false

/-- Mongoose schema validation of a Booking document, run on every
`save()` (all paths): date not before today, `HH:MM`-shaped times,
purpose length 5..500, attendees 1..1000 when present, notes and
rejection reason at most 500 characters.  (Required fields and the
enums are total in this embedding.) -/
def validateDoc (today : Nat) (b : Booking) : Bool :=
  decide (today ≤ b.date) &&
  decide (b.startTime < 1440) && decide (b.endTime < 1440) &&
  decide (5 ≤ b.purpose.length) && decide (b.purpose.length ≤ 500) &&
  (match b.expectedAttendees with
   | none => true
   | some n => decide (1 ≤ n) && decide (n ≤ 1000)) &&
  (match b.notes with
   | none => true
   | some s => decide (s.length ≤ 500)) &&
  (match b.rejectionReason with
   | none => true
   | some s => decide (s.length ≤ 500))

/-- `document.save()` succeeds iff schema validation passes and the
`pre('save')` hook accepts the interval (`endMinutes > startMinutes`,
`Booking.js` lines 103-116).  Both failure modes surface as errors to
the calling controller. -/
def saveDoc (today : Nat) (b : Booking) : Bool :=
  validateDoc today b && decide (b.startTime < b.endTime)

/-- A fresh ObjectId for an inserted booking: Mongo assigns an id not
present in the collection, modelled as one past the maximum. -/
def freshId (bs : List Booking) : Nat :=
  bs.foldr (fun b m => max b.id m) 0 + 1

/-- Request body of `POST /api/bookings` (`createBooking`). -/
structure CreateReq where
  hall : Option Nat
  date : Option Nat
  startTime : Option Nat
  endTime : Option Nat
  purpose : Option String
  eventType : Option EventType
  expectedAttendees : Option Nat
  notes : Option String
deriving DecidableEq, Repr

/-- The document `Booking.create` is handed by `createBooking`: the
request fields plus the caller as `bookedBy`, default event type
`lecture`, initial status `pending`, and a fresh id. -/
def mkBooking (st : St) (u : UserCtx) (req : CreateReq)
    (hallId dt s e : Nat) : Booking :=
  { id := freshId st.bookings
    hall := hallId
    bookedBy := u.id
    date := dt
    startTime := s
    endTime := e
    purpose := req.purpose.getD ""
    eventType := req.eventType.getD .lecture
    expectedAttendees := req.expectedAttendees
    notes := req.notes
    status := .pending
    approvedBy := none
    approvalDate := none
    rejectionReason := none }

/-- `createBooking` (`hallController.js` lines 533-635): required-field
check, hall existence and availability, capacity guard, conflict check
(no exclusion), then `Booking.create` in `pending` state.  A schema
validation failure on create is caught as a `ValidationError` (400); the
`pre('save')` interval hook raises a plain `Error`, which falls through
to the 500 handler. -/
def createBooking (today : Nat) (st : St) (u : UserCtx) (req : CreateReq) :
    Outcome × St :=
  match req.hall, req.date, req.startTime, req.endTime with
  | some hallId, some dt, some s, some e =>
    if strFalsy req.purpose then (.missingFields, st)
    else
      match findHall st.halls hallId with
      | none => (.notFound, st)
      | some h =>
        if !h.isAvailable then (.hallNotAvailable, st)
        else if optNatTruthy req.expectedAttendees &&
            decide (h.capacity < (req.expectedAttendees.getD 0)) then
          (.capacityExceeded, st)
        else if checkConflict st.bookings hallId dt s e none then
          (.conflict, st)
        else if !validateDoc today (mkBooking st u req hallId dt s e) then
          (.validationError, st)
        else if decide (e ≤ s) then (.serverError, st)
        else
          (.created, { st with bookings :=
            st.bookings ++ [mkBooking st u req hallId dt s e] })
  | _, _, _, _ => (.missingFields, st)

/-- Request body of `PUT /api/bookings/:id` (`updateBooking`). -/
structure UpdateReq where
  hall : Option Nat
  date : Option Nat
  startTime : Option Nat
  endTime : Option Nat
  purpose : Option String
  eventType : Option EventType
  expectedAttendees : Option Nat
  notes : Option String
deriving DecidableEq, Repr

/-- The `updateData` object `updateBooking` accumulates and passes to
`findByIdAndUpdate`.  `resetStatus` stands for the trio
`status = 'pending'`, `approvedBy = undefined`, `approvalDate =
undefined` written when hall/date/time fields are supplied. -/
structure UpdateData where
  purpose : Option String
  eventType : Option EventType
  expectedAttendees : Option Nat
  notes : Option String
  hall : Option Nat
  date : Option Nat
  startTime : Option Nat
  endTime : Option Nat
  resetStatus : Bool
deriving DecidableEq, Repr

/-- Apply an `updateData` object to a stored booking, as
`findByIdAndUpdate` does: supplied paths replace the stored ones,
everything else is untouched; the status reset clears the approver
fields. -/
def applyUpdate (b : Booking) (ud : UpdateData) : Booking :=
  { b with
    purpose := ud.purpose.getD b.purpose
    eventType := ud.eventType.getD b.eventType
    expectedAttendees :=
      match ud.expectedAttendees with
      | none => b.expectedAttendees
      | some n => some n
    notes :=
      match ud.notes with
      | none => b.notes
      | some s => some s
    hall := ud.hall.getD b.hall
    date := ud.date.getD b.date
    startTime := ud.startTime.getD b.startTime
    endTime := ud.endTime.getD b.endTime
    status := if ud.resetStatus then .pending else b.status
    approvedBy := if ud.resetStatus then none else b.approvedBy
    approvalDate := if ud.resetStatus then none else b.approvalDate }

/-- `runValidators: true` on `findByIdAndUpdate`: schema validators run
on the supplied paths only.  Document middleware (the `pre('save')`
interval hook) does not run on update queries. -/
def validUpdate (today : Nat) (ud : UpdateData) : Bool :=
  (match ud.purpose with
   | none => true
   | some p => decide (5 ≤ p.length) && decide (p.length ≤ 500)) &&
  (match ud.expectedAttendees with
   | none => true
   | some n => decide (1 ≤ n) && decide (n ≤ 1000)) &&
  (match ud.notes with
   | none => true
   | some s => decide (s.length ≤ 500)) &&
  (match ud.date with
   | none => true
   | some d => decide (today ≤ d)) &&
  (match ud.startTime with
   | none => true
   | some t => decide (t < 1440)) &&
  (match ud.endTime with
   | none => true
   | some t => decide (t < 1440))

/-- Whether the request supplies any of hall/date/startTime/endTime —
the condition `if (hall || date || startTime || endTime)` guarding both
the conflict re-check and the status reset. -/
def timeFieldsSupplied (req : UpdateReq) : Bool :=
  req.hall.isSome || req.date.isSome || req.startTime.isSome ||
    req.endTime.isSome

/-- The `updateData` object `updateBooking` builds from the request
body: descriptive fields under their truthiness/definedness guards,
hall when supplied, date/time fields and the status reset only when
some hall/date/time field is supplied. -/
def updateDataOf (req : UpdateReq) : UpdateData :=
  { purpose := if strFalsy req.purpose then none else req.purpose
    eventType := req.eventType
    expectedAttendees := req.expectedAttendees
    notes := req.notes
    hall := req.hall
    date := if timeFieldsSupplied req then req.date else none
    startTime := if timeFieldsSupplied req then req.startTime else none
    endTime := if timeFieldsSupplied req then req.endTime else none
    resetStatus := timeFieldsSupplied req }

/-- The hall existence/availability guard of `updateBooking`, run only
when the request supplies a hall (`if (hall)`). -/
def hallGuardOf (st : St) (req : UpdateReq) : Option Outcome :=
  match req.hall with
  | none => none
  | some hid =>
    match findHall st.halls hid with
    | none => some .notFound
    | some h => if !h.isAvailable then some .hallNotAvailable else none

/-- The capacity guard of `updateBooking`, run only when the request
supplies a truthy `expectedAttendees`; it looks up the effective hall
(`newHall`), and a dangling hall reference there is an uncaught
`TypeError`, i.e. a 500. -/
def capGuardOf (st : St) (booking : Booking) (req : UpdateReq) :
    Option Outcome :=
  if optNatTruthy req.expectedAttendees then
    match findHall st.halls (req.hall.getD booking.hall) with
    | none => some .serverError
    | some h =>
      if decide (h.capacity < (req.expectedAttendees.getD 0)) then
        some .capacityExceeded
      else none
  else none

/-- `updateBooking` (`hallController.js` lines 640-794): owner-or-admin
guard, approved-only-by-admin guard (status 400), optional hall
existence/availability check, capacity guard against the effective hall,
conflict check excluding self when any hall/date/time field is supplied,
status reset in the same case, then `findByIdAndUpdate` with update
validators. -/
def updateBooking (today : Nat) (st : St) (u : UserCtx) (bid : Nat)
    (req : UpdateReq) : Outcome × St :=
  match findBooking st.bookings bid with
  | none => (.notFound, st)
  | some booking =>
    if u.role != .admin && booking.bookedBy != u.id then (.forbidden, st)
    else if booking.status == .approved && u.role != .admin then
      (.cannotUpdateApproved, st)
    else
      match hallGuardOf st req with
      | some o => (o, st)
      | none =>
        match capGuardOf st booking req with
        | some o => (o, st)
        | none =>
          if timeFieldsSupplied req &&
              checkConflict st.bookings (req.hall.getD booking.hall)
                (req.date.getD booking.date)
                (req.startTime.getD booking.startTime)
                (req.endTime.getD booking.endTime) (some bid) then
            (.conflict, st)
          else if !validUpdate today (updateDataOf req) then
            (.validationError, st)
          else
            (.ok, { st with bookings := st.bookings.map (fun c =>
              if c.id == bid then applyUpdate c (updateDataOf req)
              else c) })

/-- The mutation `approveBooking` applies to the found document before
saving: approved status, approver identity, approval timestamp, cleared
rejection reason. -/
def approvedVersion (b : Booking) (adminId now : Nat) : Booking :=
  { b with
    status := .approved
    approvedBy := some adminId
    approvalDate := some now
    rejectionReason := none }

/-- The mutation `rejectBooking` applies to the found document before
saving: rejected status, acting admin, timestamp, supplied reason. -/
def rejectedVersion (b : Booking) (adminId now : Nat)
    (reason : Option String) : Booking :=
  { b with
    status := .rejected
    approvedBy := some adminId
    approvalDate := some now
    rejectionReason := reason }

/-- The mutation `cancelBooking` applies before saving. -/
def cancelledVersion (b : Booking) : Booking :=
  { b with status := .cancelled }

/-- `approveBooking` (`hallController.js` lines 799-865): guards against
already-approved and cancelled bookings (but not rejected ones), re-runs
the conflict check excluding the booking itself, then records approver
identity and timestamp, clears any rejection reason, and saves.  Every
error thrown by `save()` surfaces as a 500. -/
def approveBooking (today now : Nat) (st : St) (u : UserCtx) (bid : Nat) :
    Outcome × St :=
  match findBooking st.bookings bid with
  | none => (.notFound, st)
  | some b =>
    if b.status == .approved then (.alreadyApproved, st)
    else if b.status == .cancelled then (.cancelledApprove, st)
    else if checkConflict st.bookings b.hall b.date b.startTime b.endTime
        (some bid) then
      (.conflict, st)
    else if saveDoc today (approvedVersion b u.id now) then
      (.ok, { st with bookings := st.bookings.map (fun c =>
        if c.id == bid then approvedVersion b u.id now else c) })
    else (.serverError, st)

/-- `rejectBooking` (`hallController.js` lines 870-929): requires a
rejection reason before looking up the booking, guards against
already-rejected and cancelled bookings (but not approved ones), then
records the admin, timestamp and reason and saves. -/
def rejectBooking (today now : Nat) (st : St) (u : UserCtx) (bid : Nat)
    (reason : Option String) : Outcome × St :=
  if strFalsy reason then (.missingRejectionReason, st)
  else
    match findBooking st.bookings bid with
    | none => (.notFound, st)
    | some b =>
      if b.status == .rejected then (.alreadyRejected, st)
      else if b.status == .cancelled then (.cancelledReject, st)
      else if saveDoc today (rejectedVersion b u.id now reason) then
        (.ok, { st with bookings := st.bookings.map (fun c =>
          if c.id == bid then rejectedVersion b u.id now reason else c) })
      else (.serverError, st)

/-- `cancelBooking` (`hallController.js` lines 934-980): owner-or-admin
guard, already-cancelled guard, then sets the status and saves. -/
def cancelBooking (today : Nat) (st : St) (u : UserCtx) (bid : Nat) :
    Outcome × St :=
  match findBooking st.bookings bid with
  | none => (.notFound, st)
  | some b =>
    if u.role != .admin && b.bookedBy != u.id then (.forbidden, st)
    else if b.status == .cancelled then (.alreadyCancelled, st)
    else if saveDoc today (cancelledVersion b) then
      (.ok, { st with bookings := st.bookings.map (fun c =>
        if c.id == bid then cancelledVersion b else c) })
    else (.serverError, st)

/-- `deleteBooking` (`hallController.js` lines 985-1018): look up, then
`findByIdAndDelete`.  No guard beyond the admin-only route. -/
def deleteBooking (st : St) (bid : Nat) : Outcome × St :=
  match findBooking st.bookings bid with
  | none => (.notFound, st)
  | some _ =>
    (.okDeleted, { st with bookings := st.bookings.filter (fun b => b.id != bid) })

/-- Modelled from the spec: `middleware/auth.js` is not under `src/`;
per the spec's authorization guard (§4.2, §6) and the route table in
`routes/bookings.js`, `authorize('admin')` rejects a non-admin caller
with `Forbidden` (403) before the controller runs. -/
def requireAdmin (st : St) (u : UserCtx) (k : Unit → Outcome × St) :
    Outcome × St :=
  if u.role != .admin then (.forbidden, st) else k ()

/-- Route `PUT /api/bookings/:id/approve` = `authorize('admin')` then
`approveBooking`. -/
def approveRoute (today now : Nat) (st : St) (u : UserCtx) (bid : Nat) :
    Outcome × St :=
  requireAdmin st u (fun _ => approveBooking today now st u bid)

/-- Route `PUT /api/bookings/:id/reject` = `authorize('admin')` then
`rejectBooking`. -/
def rejectRoute (today now : Nat) (st : St) (u : UserCtx) (bid : Nat)
    (reason : Option String) : Outcome × St :=
  requireAdmin st u (fun _ => rejectBooking today now st u bid reason)

/-- Route `DELETE /api/bookings/:id` = `authorize('admin')` then
`deleteBooking`. -/
def deleteRoute (st : St) (u : UserCtx) (bid : Nat) : Outcome × St :=
  requireAdmin st u (fun _ => deleteBooking st bid)

/-- One inbound request against the booking endpoints, carrying the
clock values in effect when it is processed. -/
inductive Op
  | create (today : Nat) (u : UserCtx) (req : CreateReq)
  | update (today : Nat) (u : UserCtx) (bid : Nat) (req : UpdateReq)
  | approve (today now : Nat) (u : UserCtx) (bid : Nat)
  | reject (today now : Nat) (u : UserCtx) (bid : Nat)
      (reason : Option String)
  | cancel (today : Nat) (u : UserCtx) (bid : Nat)
  | delete (u : UserCtx) (bid : Nat)

/-- Dispatch one request through the router. -/
def step (st : St) : Op → Outcome × St
  | .create today u req => createBooking today st u req
  | .update today u bid req => updateBooking today st u bid req
  | .approve today now u bid => approveRoute today now st u bid
  | .reject today now u bid reason => rejectRoute today now st u bid reason
  | .cancel today u bid => cancelBooking today st u bid
  | .delete u bid => deleteRoute st u bid

/-- A sequential run of requests. -/
def run (st : St) (ops : List Op) : St :=
  ops.foldl (fun s op => (step s op).2) st

lemma isActive_iff {b : Booking} :
    isActive b = true ↔ b.status = .pending ∨ b.status = .approved := by
  cases hb : b.status <;> simp [isActive, hb]

/-- C1: checkConflict is the half-open overlap existence test.
`checkConflict(hallId, date, s, e, excl)` returns true iff some
non-excluded booking of that hall and exact date, with status pending or
approved, has an interval meeting `[s,e)` under half-open semantics
(`s < b.end ∧ b.start < e`), provided the proposed interval and every
such candidate interval are proper (`end > start`).  Adjacent intervals
sharing an endpoint therefore do not conflict, and cancelled/rejected
bookings never cause a conflict (they fail the status filter). -/
theorem checkConflict_iff_halfOpen (bs : List Booking) (hallId dt s e : Nat)
    (excl : Option Nat) (hse : s < e)
    (hwf : ∀ b ∈ bs, b.hall = hallId → b.date = dt → isActive b = true →
      b.startTime < b.endTime) :
    checkConflict bs hallId dt s e excl = true ↔
      ∃ b ∈ bs, notExcluded excl b = true ∧ b.hall = hallId ∧ b.date = dt ∧
        (b.status = .pending ∨ b.status = .approved) ∧
        s < b.endTime ∧ b.startTime < e := by
  simp only [checkConflict, List.any_eq_true, List.mem_filter]
  constructor
  · rintro ⟨b, ⟨hb, hpred⟩, hov⟩
    simp only [Bool.and_eq_true, beq_iff_eq] at hpred
    obtain ⟨⟨⟨hhall, hdt⟩, hact⟩, hexcl⟩ := hpred
    have hwfb := hwf b hb hhall hdt hact
    have hmeet := (overlap3_eq_halfOpen hse hwfb).mp hov
    exact ⟨b, hb, hexcl, hhall, hdt, isActive_iff.mp hact, hmeet.1, hmeet.2⟩
  · rintro ⟨b, hb, hexcl, hhall, hdt, hstat, h1, h2⟩
    have hact : isActive b = true := isActive_iff.mpr hstat
    have hwfb := hwf b hb hhall hdt hact
    refine ⟨b, ⟨hb, ?_⟩, (overlap3_eq_halfOpen hse hwfb).mpr ⟨h1, h2⟩⟩
    simp only [Bool.and_eq_true, beq_iff_eq]
    exact ⟨⟨⟨hhall, hdt⟩, hact⟩, hexcl⟩

/-! ### The at-most-one-approved-per-slot invariant -/

/-- Booking ids are pairwise distinct (Mongo `_id` uniqueness). -/
def IdsNodup (bs : List Booking) : Prop :=
  (bs.map Booking.id).Nodup

/-- No two distinct approved bookings of the same hall and date have
half-open-overlapping intervals. -/
def ApprovedExclusive (bs : List Booking) : Prop :=
  ∀ b1 ∈ bs, ∀ b2 ∈ bs, b1.id ≠ b2.id →
    b1.status = .approved → b2.status = .approved →
    b1.hall = b2.hall → b1.date = b2.date →
    ¬ halfOpenOverlap b1.startTime b1.endTime b2.startTime b2.endTime

/-- The store invariant: unique booking ids and at most one approved
booking per hall/date/overlapping interval. -/
def Inv (st : St) : Prop :=
  IdsNodup st.bookings ∧ ApprovedExclusive st.bookings

instance (bs : List Booking) : Decidable (IdsNodup bs) := by
  unfold IdsNodup; infer_instance

instance (bs : List Booking) : Decidable (ApprovedExclusive bs) := by
  unfold ApprovedExclusive; infer_instance

instance (st : St) : Decidable (Inv st) := by
  unfold Inv; infer_instance

lemma id_le_foldr_max {bs : List Booking} {b : Booking} (hb : b ∈ bs) :
    b.id ≤ bs.foldr (fun x m => max x.id m) 0 := by
  induction bs with
  | nil => cases hb
  | cons h t ih =>
    rcases List.mem_cons.mp hb with hh | ht
    · subst hh; exact Nat.le_max_left _ _
    · exact le_trans (ih ht) (Nat.le_max_right _ _)

/-- A fresh id is strictly larger than every id in the collection. -/
lemma freshId_gt {bs : List Booking} {b : Booking} (hb : b ∈ bs) :
    b.id < freshId bs :=
  Nat.lt_succ_of_le (id_le_foldr_max hb)

lemma findBooking_spec {bs : List Booking} {bid : Nat} {b : Booking}
    (h : findBooking bs bid = some b) : b ∈ bs ∧ b.id = bid := by
  have hmem := List.mem_of_find?_eq_some h
  have hp := List.find?_some h
  exact ⟨hmem, by simpa using hp⟩

/-- Elements of an update-by-id map are either the image of a matching
element or an untouched element with a different id. -/
lemma mem_map_ite {bs : List Booking} {bid : Nat} {g : Booking → Booking}
    {c : Booking}
    (hc : c ∈ bs.map (fun x => if x.id == bid then g x else x)) :
    (∃ x ∈ bs, x.id = bid ∧ c = g x) ∨ (c ∈ bs ∧ c.id ≠ bid) := by
  rcases List.mem_map.mp hc with ⟨x, hx, hxc⟩
  by_cases hxb : x.id = bid
  · left
    refine ⟨x, hx, hxb, ?_⟩
    simp only [hxb, beq_self_eq_true, if_true] at hxc
    exact hxc.symm
  · right
    have : (x.id == bid) = false := beq_eq_false_iff_ne.mpr hxb
    simp only [this, Bool.false_eq_true, if_false] at hxc
    exact hxc ▸ ⟨hx, hxc ▸ hxb⟩

/-- An update-by-id map whose replacement keeps the key id fixed leaves
the id sequence unchanged. -/
lemma ids_map_ite {bs : List Booking} {bid : Nat} {g : Booking → Booking}
    (hg : ∀ x, x.id = bid → (g x).id = bid) :
    (bs.map (fun x => if x.id == bid then g x else x)).map Booking.id =
      bs.map Booking.id := by
  induction bs with
  | nil => rfl
  | cons h t ih =>
    simp only [List.map_cons, ih]
    by_cases hhb : h.id = bid
    · simp [hhb, hg h hhb]
    · simp [beq_eq_false_iff_ne.mpr hhb]

/-- `findById` after an update-by-id map returns the image of the
record it returned before. -/
lemma findBooking_map_ite {bs : List Booking} {bid : Nat}
    {g : Booking → Booking} {b : Booking}
    (hg : ∀ x, x.id = bid → (g x).id = bid)
    (hfind : findBooking bs bid = some b) :
    findBooking (bs.map (fun x => if x.id == bid then g x else x)) bid =
      some (g b) := by
  induction bs with
  | nil => simp [findBooking] at hfind
  | cons h t ih =>
    by_cases hhb : h.id = bid
    · have hpos : (h.id == bid) = true := beq_iff_eq.mpr hhb
      have hb : h = b := by
        simp only [findBooking, List.find?, hpos, Option.some.injEq]
          at hfind
        exact hfind
      subst hb
      simp [findBooking, List.find?, List.map_cons, hpos, hg h hhb]
    · have hne : (h.id == bid) = false := beq_eq_false_iff_ne.mpr hhb
      have hfind' : findBooking t bid = some b := by
        simpa only [findBooking, List.find?, hne] using hfind
      have hres := ih hfind'
      simp only [findBooking, List.find?, List.map_cons, hne,
        Bool.false_eq_true, if_false] at hres ⊢
      exact hres

/-- Unpacking `checkConflict = false` with an exclusion id: every other
active booking of the hall/date fails all three overlap cases. -/
lemma checkConflict_false_elim {bs : List Booking} {hallId dt s e bid : Nat}
    (h : checkConflict bs hallId dt s e (some bid) = false) :
    ∀ c ∈ bs, c.id ≠ bid → isActive c = true → c.hall = hallId →
      c.date = dt → overlap3 s e c.startTime c.endTime = false := by
  intro c hc hid hact hh hd
  by_contra hov
  have hov' : overlap3 s e c.startTime c.endTime = true := by
    cases hcase : overlap3 s e c.startTime c.endTime
    · exact absurd hcase hov
    · rfl
  have : checkConflict bs hallId dt s e (some bid) = true := by
    simp only [checkConflict, List.any_eq_true, List.mem_filter]
    refine ⟨c, ⟨hc, ?_⟩, hov'⟩
    simp only [Bool.and_eq_true, beq_iff_eq]
    exact ⟨⟨⟨hh, hd⟩, hact⟩, by simpa [notExcluded] using hid⟩
  rw [this] at h
  cases h

/-- Appending a non-approved booking with a fresh id preserves the
invariant. -/
lemma Inv_append_fresh {st : St} {b : Booking} (hinv : Inv st)
    (hid : b.id = freshId st.bookings) (hst : b.status ≠ .approved) :
    Inv { st with bookings := st.bookings ++ [b] } := by
  obtain ⟨hnd, hae⟩ := hinv
  constructor
  · simp only [IdsNodup, List.map_append, List.map_cons, List.map_nil]
    rw [List.nodup_append]
    refine ⟨hnd, List.nodup_singleton _, ?_⟩
    intro a ha hb'
    simp only [List.mem_singleton] at hb'
    subst hb'
    rcases List.mem_map.mp ha with ⟨x, hx, hxa⟩
    have := freshId_gt hx
    omega
  · intro b1 hb1 b2 hb2 hne h1 h2 hh hd
    rcases List.mem_append.mp hb1 with hb1' | hb1' <;>
      rcases List.mem_append.mp hb2 with hb2' | hb2'
    · exact hae b1 hb1' b2 hb2' hne h1 h2 hh hd
    · have : b2 = b := List.mem_singleton.mp hb2'
      exact absurd h2 (this ▸ hst)
    · have : b1 = b := List.mem_singleton.mp hb1'
      exact absurd h1 (this ▸ hst)
    · have e1 : b1 = b := List.mem_singleton.mp hb1'
      have e2 : b2 = b := List.mem_singleton.mp hb2'
      exact absurd (e1.trans e2.symm ▸ rfl) hne

/-- Replacing a booking by a non-approved record preserves the
exclusivity part of the invariant. -/
lemma approvedExclusive_replace_nonapproved {bs : List Booking} {bid : Nat}
    {g : Booking → Booking} (hae : ApprovedExclusive bs)
    (hst : ∀ x, x.id = bid → (g x).status ≠ .approved) :
    ApprovedExclusive
      (bs.map (fun x => if x.id == bid then g x else x)) := by
  intro b1 hb1 b2 hb2 hne h1 h2 hh hd
  rcases mem_map_ite hb1 with ⟨x1, hx1, hid1, rfl⟩ | ⟨hb1', hid1⟩
  · exact absurd h1 (hst x1 hid1)
  · rcases mem_map_ite hb2 with ⟨x2, hx2, hid2, rfl⟩ | ⟨hb2', hid2⟩
    · exact absurd h2 (hst x2 hid2)
    · exact hae b1 hb1' b2 hb2' hne h1 h2 hh hd

/-- Replacing the booking that passed the approval-time conflict check
by its approved version preserves exclusivity. -/
lemma approvedExclusive_replace_approved {bs : List Booking} {bid : Nat}
    {b b' : Booking} (hae : ApprovedExclusive bs)
    (hh : b'.hall = b.hall) (hd : b'.date = b.date)
    (hs : b'.startTime = b.startTime) (he : b'.endTime = b.endTime)
    (hcc : checkConflict bs b.hall b.date b.startTime b.endTime
      (some bid) = false) :
    ApprovedExclusive
      (bs.map (fun x => if x.id == bid then b' else x)) := by
  have helim := checkConflict_false_elim hcc
  intro b1 hb1 b2 hb2 hne h1 h2 hhall hdate
  rcases mem_map_ite (g := fun _ => b') hb1 with ⟨x1, hx1, hid1, hc1⟩ |
    ⟨hb1', hid1⟩
  · have hc1' : b1 = b' := hc1
    rcases mem_map_ite (g := fun _ => b') hb2 with ⟨x2, hx2, hid2, hc2⟩ |
      ⟨hb2', hid2⟩
    · have hc2' : b2 = b' := hc2
      exact absurd (by rw [hc1', hc2']) hne
    · -- b1 is the freshly approved record, b2 an untouched other booking
      have hb2hall : b2.hall = b.hall := by rw [← hhall, hc1', hh]
      have hb2date : b2.date = b.date := by rw [← hdate, hc1', hd]
      have hov := helim b2 hb2' hid2 (isActive_iff.mpr (Or.inr h2))
        hb2hall hb2date
      have hno := overlap3_false_not_halfOpen hov
      rw [hc1', hs, he]
      exact hno
  · rcases mem_map_ite (g := fun _ => b') hb2 with ⟨x2, hx2, hid2, hc2⟩ |
      ⟨hb2', hid2⟩
    · have hc2' : b2 = b' := hc2
      -- b2 is the freshly approved record, b1 an untouched other booking
      have hb1hall : b1.hall = b.hall := by rw [hhall, hc2', hh]
      have hb1date : b1.date = b.date := by rw [hdate, hc2', hd]
      have hov := helim b1 hb1' hid1 (isActive_iff.mpr (Or.inr h1))
        hb1hall hb1date
      have hno := overlap3_false_not_halfOpen hov
      rw [hc2', hs, he]
      intro hcon
      exact hno ⟨hcon.2, hcon.1⟩
    · exact hae b1 hb1' b2 hb2' hne h1 h2 hhall hdate

/-- Updated-field maps that keep ids fixed preserve the full invariant
once exclusivity is known for the image. -/
lemma Inv_map_ite {st : St} {bid : Nat} {g : Booking → Booking}
    (hinv : Inv st)
    (hg : ∀ x, x.id = bid → (g x).id = bid)
    (hae : ApprovedExclusive
      (st.bookings.map (fun x => if x.id == bid then g x else x))) :
    Inv { st with bookings :=
      st.bookings.map (fun x => if x.id == bid then g x else x) } := by
  refine ⟨?_, hae⟩
  show IdsNodup _
  unfold IdsNodup
  rw [ids_map_ite hg]
  exact hinv.1

lemma opt_none_of_isSome_false {α : Type} {o : Option α}
    (h : o.isSome = false) : o = none := by
  cases o
  · rfl
  · simp at h

/-- When no hall/date/time field is supplied, the request supplies none
of the four fields. -/
lemma timeFields_none {req : UpdateReq} (h : timeFieldsSupplied req = false) :
    req.hall = none ∧ req.date = none ∧ req.startTime = none ∧
      req.endTime = none := by
  unfold timeFieldsSupplied at h
  refine ⟨opt_none_of_isSome_false ?_, opt_none_of_isSome_false ?_,
    opt_none_of_isSome_false ?_, opt_none_of_isSome_false ?_⟩ <;>
    cases hh : req.hall.isSome <;> cases hd : req.date.isSome <;>
    cases hs : req.startTime.isSome <;> cases he : req.endTime.isSome <;>
    simp_all

/-- A map whose images preserve id, status, hall, date and interval
preserves exclusivity. -/
lemma approvedExclusive_map_preserving {bs : List Booking} {bid : Nat}
    {g : Booking → Booking} (hae : ApprovedExclusive bs)
    (hg : ∀ x, (g x).id = x.id ∧ (g x).status = x.status ∧
      (g x).hall = x.hall ∧ (g x).date = x.date ∧
      (g x).startTime = x.startTime ∧ (g x).endTime = x.endTime) :
    ApprovedExclusive
      (bs.map (fun x => if x.id == bid then g x else x)) := by
  intro b1 hb1 b2 hb2 hne h1 h2 hh hd
  have get : ∀ c, c ∈ bs.map (fun x => if x.id == bid then g x else x) →
      ∃ x ∈ bs, c.id = x.id ∧ c.status = x.status ∧ c.hall = x.hall ∧
        c.date = x.date ∧ c.startTime = x.startTime ∧
        c.endTime = x.endTime := by
    intro c hc
    rcases mem_map_ite hc with ⟨x, hx, hxb, hcx⟩ | ⟨hc', hcb⟩
    · exact ⟨x, hx, by rw [hcx]; exact (hg x).1, by rw [hcx]; exact (hg x).2.1,
        by rw [hcx]; exact (hg x).2.2.1, by rw [hcx]; exact (hg x).2.2.2.1,
        by rw [hcx]; exact (hg x).2.2.2.2.1, by rw [hcx]; exact (hg x).2.2.2.2.2⟩
    · exact ⟨c, hc', rfl, rfl, rfl, rfl, rfl, rfl⟩
  obtain ⟨x1, hx1, e1i, e1s, e1h, e1d, e1a, e1b⟩ := get b1 hb1
  obtain ⟨x2, hx2, e2i, e2s, e2h, e2d, e2a, e2b⟩ := get b2 hb2
  have hres := hae x1 hx1 x2 hx2 (by rw [← e1i, ← e2i]; exact hne)
    (by rw [← e1s]; exact h1) (by rw [← e2s]; exact h2)
    (by rw [← e1h, ← e2h]; exact hh) (by rw [← e1d, ← e2d]; exact hd)
  rw [e1a, e1b, e2a, e2b]
  exact hres

/-- `createBooking` preserves the invariant: the only state change is
appending a fresh `pending` booking. -/
lemma createBooking_inv {today : Nat} {st : St} {u : UserCtx}
    {req : CreateReq} (hinv : Inv st) :
    Inv (createBooking today st u req).2 := by
  unfold createBooking
  split
  · split
    · exact hinv
    · split
      · exact hinv
      · split
        · exact hinv
        · split
          · exact hinv
          · split
            · exact hinv
            · split
              · exact hinv
              · split
                · exact hinv
                · exact Inv_append_fresh hinv rfl (by simp [mkBooking])
  · exact hinv

/-- `updateBooking` preserves the invariant: an edit that supplies a
hall/date/time field resets the booking to `pending`; one that supplies
none keeps status and interval untouched. -/
lemma updateBooking_inv {today : Nat} {st : St} {u : UserCtx} {bid : Nat}
    {req : UpdateReq} (hinv : Inv st) :
    Inv (updateBooking today st u bid req).2 := by
  unfold updateBooking
  cases hfind : findBooking st.bookings bid with
  | none => exact hinv
  | some booking =>
    dsimp only
    by_cases hF : (u.role != Role.admin && booking.bookedBy != u.id) = true
    · rw [if_pos hF]; exact hinv
    · rw [if_neg hF]
      by_cases hU : (booking.status == BStatus.approved &&
          u.role != Role.admin) = true
      · rw [if_pos hU]; exact hinv
      · rw [if_neg hU]
        cases hHall : hallGuardOf st req with
        | some o => exact hinv
        | none =>
          cases hCap : capGuardOf st booking req with
          | some o => exact hinv
          | none =>
            by_cases hcc : (timeFieldsSupplied req &&
                checkConflict st.bookings (req.hall.getD booking.hall)
                  (req.date.getD booking.date)
                  (req.startTime.getD booking.startTime)
                  (req.endTime.getD booking.endTime) (some bid)) = true
            · rw [if_pos hcc]; exact hinv
            · rw [if_neg hcc]
              by_cases hV : (!validUpdate today (updateDataOf req)) = true
              · rw [if_pos hV]; exact hinv
              · rw [if_neg hV]
                refine Inv_map_ite hinv (fun x hx => by
                  simpa [applyUpdate] using hx) ?_
                cases hts : timeFieldsSupplied req with
                | true =>
                  refine approvedExclusive_replace_nonapproved hinv.2 ?_
                  intro x hx
                  simp [applyUpdate, updateDataOf, hts]
                | false =>
                  obtain ⟨hh, hd, hs, he⟩ := timeFields_none hts
                  refine approvedExclusive_map_preserving hinv.2 ?_
                  intro x
                  refine ⟨rfl, ?_, ?_, ?_, ?_, ?_⟩ <;>
                    simp [applyUpdate, updateDataOf, hts, hh, hd, hs, he]

/-- `approveBooking` preserves the invariant: a booking becomes approved
only after the conflict re-check, which clears it against every other
active booking of its hall and date. -/
lemma approveBooking_inv {today now : Nat} {st : St} {u : UserCtx}
    {bid : Nat} (hinv : Inv st) :
    Inv (approveBooking today now st u bid).2 := by
  unfold approveBooking
  cases hfind : findBooking st.bookings bid with
  | none => exact hinv
  | some b =>
    obtain ⟨hbmem, hbid⟩ := findBooking_spec hfind
    dsimp only
    by_cases hA : (b.status == BStatus.approved) = true
    · rw [if_pos hA]; exact hinv
    · rw [if_neg hA]
      by_cases hC : (b.status == BStatus.cancelled) = true
      · rw [if_pos hC]; exact hinv
      · rw [if_neg hC]
        by_cases hcc : checkConflict st.bookings b.hall b.date b.startTime
            b.endTime (some bid) = true
        · rw [if_pos hcc]; exact hinv
        · rw [if_neg hcc]
          have hcc' : checkConflict st.bookings b.hall b.date b.startTime
              b.endTime (some bid) = false := by
            rwa [Bool.not_eq_true] at hcc
          by_cases hS : saveDoc today (approvedVersion b u.id now) = true
          · rw [if_pos hS]
            exact Inv_map_ite hinv
              (fun x hx => by simpa [approvedVersion] using hbid)
              (approvedExclusive_replace_approved (b := b) hinv.2
                rfl rfl rfl rfl hcc')
          · rw [if_neg hS]; exact hinv

/-- `rejectBooking` preserves the invariant: the touched booking leaves
the approved set. -/
lemma rejectBooking_inv {today now : Nat} {st : St} {u : UserCtx}
    {bid : Nat} {reason : Option String} (hinv : Inv st) :
    Inv (rejectBooking today now st u bid reason).2 := by
  unfold rejectBooking
  by_cases hR : strFalsy reason = true
  · rw [if_pos hR]; exact hinv
  · rw [if_neg hR]
    cases hfind : findBooking st.bookings bid with
    | none => exact hinv
    | some b =>
      obtain ⟨hbmem, hbid⟩ := findBooking_spec hfind
      dsimp only
      by_cases h1 : (b.status == BStatus.rejected) = true
      · rw [if_pos h1]; exact hinv
      · rw [if_neg h1]
        by_cases h2 : (b.status == BStatus.cancelled) = true
        · rw [if_pos h2]; exact hinv
        · rw [if_neg h2]
          by_cases hS : saveDoc today (rejectedVersion b u.id now reason) =
              true
          · rw [if_pos hS]
            refine Inv_map_ite hinv
              (fun x hx => by simpa [rejectedVersion] using hbid) ?_
            refine approvedExclusive_replace_nonapproved hinv.2 ?_
            intro x hx
            simp [rejectedVersion]
          · rw [if_neg hS]; exact hinv

/-- `cancelBooking` preserves the invariant. -/
lemma cancelBooking_inv {today : Nat} {st : St} {u : UserCtx} {bid : Nat}
    (hinv : Inv st) : Inv (cancelBooking today st u bid).2 := by
  unfold cancelBooking
  cases hfind : findBooking st.bookings bid with
  | none => exact hinv
  | some b =>
    obtain ⟨hbmem, hbid⟩ := findBooking_spec hfind
    dsimp only
    by_cases hF : (u.role != Role.admin && b.bookedBy != u.id) = true
    · rw [if_pos hF]; exact hinv
    · rw [if_neg hF]
      by_cases h1 : (b.status == BStatus.cancelled) = true
      · rw [if_pos h1]; exact hinv
      · rw [if_neg h1]
        by_cases hS : saveDoc today (cancelledVersion b) = true
        · rw [if_pos hS]
          refine Inv_map_ite hinv
            (fun x hx => by simpa [cancelledVersion] using hbid) ?_
          refine approvedExclusive_replace_nonapproved hinv.2 ?_
          intro x hx
          simp [cancelledVersion]
        · rw [if_neg hS]; exact hinv

/-- `deleteBooking` preserves the invariant: removal only shrinks the
collection. -/
lemma deleteBooking_inv {st : St} {bid : Nat} (hinv : Inv st) :
    Inv (deleteBooking st bid).2 := by
  unfold deleteBooking
  split
  · exact hinv
  · constructor
    · show IdsNodup _
      unfold IdsNodup
      exact hinv.1.sublist
        (List.Sublist.map Booking.id (List.filter_sublist _))
    · intro b1 hb1 b2 hb2 hne h1 h2 hh hd
      exact hinv.2 b1 (List.mem_of_mem_filter hb1) b2
        (List.mem_of_mem_filter hb2) hne h1 h2 hh hd

/-- Every request dispatched through the router preserves the
invariant. -/
lemma step_inv {st : St} (op : Op) (hinv : Inv st) :
    Inv (step st op).2 := by
  cases op with
  | create today u req => exact createBooking_inv hinv
  | update today u bid req => exact updateBooking_inv hinv
  | approve today now u bid =>
    show Inv (approveRoute today now st u bid).2
    unfold approveRoute requireAdmin
    split
    · exact hinv
    · exact approveBooking_inv hinv
  | reject today now u bid reason =>
    show Inv (rejectRoute today now st u bid reason).2
    unfold rejectRoute requireAdmin
    split
    · exact hinv
    · exact rejectBooking_inv hinv
  | cancel today u bid => exact cancelBooking_inv hinv
  | delete u bid =>
    show Inv (deleteRoute st u bid).2
    unfold deleteRoute requireAdmin
    split
    · exact hinv
    · exact deleteBooking_inv hinv

/-- Invariant preservation along any sequential run. -/
lemma run_inv (ops : List Op) {st : St} (hinv : Inv st) :
    Inv (run st ops) := by
  induction ops generalizing st with
  | nil => exact hinv
  | cons op rest ih => exact ih (step_inv op hinv)

/-! ### Concrete fixtures used by witnesses and counterexamples -/

/-- An available hall with capacity 50. -/
def hall1 : Hall := { id := 1, capacity := 50, isAvailable := true }

/-- An administrator. -/
def admin1 : UserCtx := { id := 1, role := .admin }

/-- A faculty caller. -/
def fac1 : UserCtx := { id := 100, role := .faculty }

/-- A pending 09:00-10:00 booking of hall 1 by `fac1`. -/
def bookingA : Booking :=
  { id := 10, hall := 1, bookedBy := 100, date := 747,
    startTime := hmmin 9 0, endTime := hmmin 10 0,
    purpose := "Seminar", eventType := .seminar,
    expectedAttendees := some 20, notes := none, status := .pending,
    approvedBy := none, approvalDate := none, rejectionReason := none }

/-- A pending 09:30-10:30 booking of the same hall and date. -/
def bookingB : Booking :=
  { bookingA with
    id := 11
    bookedBy := 101
    startTime := hmmin 9 30
    endTime := hmmin 10 30 }

/-- `bookingA` in the approved state. -/
def bookingApproved : Booking :=
  { bookingA with
    status := .approved
    approvedBy := some 1
    approvalDate := some 5 }

/-- `bookingA` in the rejected state. -/
def bookingRejected : Booking :=
  { bookingA with status := .rejected, rejectionReason := some "room needed" }

/-- `bookingA` with a degenerate stored interval (end before start). -/
def bookingDeg : Booking := { bookingA with endTime := hmmin 8 20 }

/-- Store with only `bookingA`. -/
def stA : St := { halls := [hall1], bookings := [bookingA] }

/-- Store with the two overlapping pending bookings. -/
def stAB : St := { halls := [hall1], bookings := [bookingA, bookingB] }

/-- Store with only `bookingB`. -/
def stB : St := { halls := [hall1], bookings := [bookingB] }

/-- Store with only the approved booking. -/
def stApproved : St := { halls := [hall1], bookings := [bookingApproved] }

/-- Store with only the rejected booking. -/
def stRejected : St := { halls := [hall1], bookings := [bookingRejected] }

/-- `bookingA` in the cancelled state. -/
def bookingCancelled : Booking := { bookingA with status := .cancelled }

/-- Store with only the cancelled booking. -/
def stCancelled : St := { halls := [hall1], bookings := [bookingCancelled] }

/-- Store with only the degenerate booking. -/
def stDeg : St := { halls := [hall1], bookings := [bookingDeg] }

/-- Store with the hall and no bookings. -/
def stEmptyB : St := { halls := [hall1], bookings := [] }

/-- A creation request for 09:30-10:30 on hall 1, same date. -/
def reqOverlap : CreateReq :=
  { hall := some 1, date := some 747, startTime := some (hmmin 9 30),
    endTime := some (hmmin 10 30), purpose := some "Faculty meeting",
    eventType := some .meeting, expectedAttendees := some 10, notes := none }

/-- A creation request whose end (09:00) is before its start (10:00). -/
def reqDegenerate : CreateReq :=
  { reqOverlap with
    startTime := some (hmmin 10 0)
    endTime := some (hmmin 9 0) }

/-- An edit that re-supplies the stored start time unchanged and updates
the purpose. -/
def editSameStart : UpdateReq :=
  { hall := none, date := none, startTime := some (hmmin 9 0),
    endTime := none, purpose := some "Updated agenda", eventType := none,
    expectedAttendees := none, notes := none }

/-- An edit that moves the end time to 08:20, before the 09:00 start. -/
def editShrinkEnd : UpdateReq :=
  { hall := none, date := none, startTime := none,
    endTime := some (hmmin 8 20), purpose := none, eventType := none,
    expectedAttendees := none, notes := none }

/-- An edit touching only the purpose. -/
def editPurposeOnly : UpdateReq :=
  { hall := none, date := none, startTime := none, endTime := none,
    purpose := some "Updated agenda", eventType := none,
    expectedAttendees := none, notes := none }

/-- The hall guard of an edit can only report not-found or
hall-not-available. -/
lemma hallGuardOf_cases {st : St} {req : UpdateReq} {o : Outcome}
    (h : hallGuardOf st req = some o) :
    o = Outcome.notFound ∨ o = Outcome.hallNotAvailable := by
  rcases hh : req.hall with _ | hid
  · simp [hallGuardOf, hh] at h
  · rcases hf : findHall st.halls hid with _ | hl
    · simp [hallGuardOf, hh, hf] at h
      exact Or.inl h.symm
    · cases havail : hl.isAvailable
      · simp [hallGuardOf, hh, hf, havail] at h
        exact Or.inr h.symm
      · simp [hallGuardOf, hh, hf, havail] at h

/-- The capacity guard of an edit can only report a server error
(dangling hall) or capacity-exceeded. -/
lemma capGuardOf_cases {st : St} {booking : Booking} {req : UpdateReq}
    {o : Outcome} (h : capGuardOf st booking req = some o) :
    o = Outcome.serverError ∨ o = Outcome.capacityExceeded := by
  cases ht : optNatTruthy req.expectedAttendees
  · simp [capGuardOf, ht] at h
  · rcases hf : findHall st.halls (req.hall.getD booking.hall) with _ | hl
    · simp [capGuardOf, ht, hf] at h
      exact Or.inl h.symm
    · by_cases hc : (hl.capacity < req.expectedAttendees.getD 0)
      · simp [capGuardOf, ht, hf, hc] at h
        exact Or.inr h.symm
      · simp [capGuardOf, ht, hf, hc] at h

/-! ### Claim theorems -/

/-- C1 witness: the iff instantiated at a store holding the pending
09:00-10:00 booking and the proposed 09:30-10:30 interval. -/
theorem checkConflict_iff_halfOpen_witness :
    hmmin 9 30 < hmmin 10 30 ∧
    (∀ b ∈ [bookingA], b.hall = 1 → b.date = 747 → isActive b = true →
      b.startTime < b.endTime) ∧
    (checkConflict [bookingA] 1 747 (hmmin 9 30) (hmmin 10 30) none = true ↔
      ∃ b ∈ [bookingA], notExcluded none b = true ∧ b.hall = 1 ∧
        b.date = 747 ∧ (b.status = .pending ∨ b.status = .approved) ∧
        hmmin 9 30 < b.endTime ∧ b.startTime < hmmin 10 30) :=
  ⟨by decide, by decide,
    checkConflict_iff_halfOpen [bookingA] 1 747 (hmmin 9 30) (hmmin 10 30)
      none (by decide) (by decide)⟩

/-- C2 counterexample: with the pending 09:00-10:00 booking in the
store, a 09:30-10:30 creation request for the same hall and date is
answered `Conflict` (409) and nothing is persisted — creation IS
blocked by an overlapping pending booking, it does not succeed in
`pending` state as the claim asserts. -/
theorem createBooking_pending_overlap_cex :
    createBooking 0 stA fac1 reqOverlap = (Outcome.conflict, stA) ∧
    Outcome.conflict ≠ Outcome.created := by
  exact ⟨by decide, by decide⟩

/-- C2 amended: a creation request that passes the field, hall,
availability and capacity guards but whose interval conflicts with an
existing pending or approved booking on the same hall and date fails
with `Conflict` and leaves the store unchanged. -/
theorem createBooking_blocked_by_conflict (today : Nat) (st : St)
    (u : UserCtx) (req : CreateReq) (hallId dt s e : Nat) (h : Hall)
    (hhall : req.hall = some hallId) (hdate : req.date = some dt)
    (hstart : req.startTime = some s) (hend : req.endTime = some e)
    (hp : strFalsy req.purpose = false)
    (hfind : findHall st.halls hallId = some h)
    (havail : h.isAvailable = true)
    (hcap : (optNatTruthy req.expectedAttendees &&
      decide (h.capacity < req.expectedAttendees.getD 0)) = false)
    (hcc : checkConflict st.bookings hallId dt s e none = true) :
    createBooking today st u req = (Outcome.conflict, st) := by
  simp [createBooking, hhall, hdate, hstart, hend, hp, hfind, havail,
    hcap, hcc]

/-- C2 amended witness. -/
theorem createBooking_blocked_by_conflict_witness :
    createBooking 3 stA fac1 reqOverlap = (Outcome.conflict, stA) :=
  createBooking_blocked_by_conflict 3 stA fac1 reqOverlap 1 747
    (hmmin 9 30) (hmmin 10 30) hall1 rfl rfl rfl rfl (by decide)
    (by decide) (by decide) (by decide) (by decide)

/-- C5 counterexample: a creation request with endTime (09:00) before
startTime (10:00) whose degenerate interval still hits the three-case
conflict test against the stored pending 09:30-10:30 booking is
answered `Conflict` (409), not `ValidationFailed` — the conflict check
runs before the document is ever validated or saved. -/
theorem create_degenerate_conflict_cex :
    createBooking 0 stB fac1 reqDegenerate = (Outcome.conflict, stB) ∧
    isValidationFailed Outcome.conflict = false := by
  exact ⟨by decide, by decide⟩

/-- C5 amended: a creation request with `endTime ≤ startTime` that
passes the field/hall/availability/capacity guards and document
validation never persists anything: it fails with `Conflict` when the
degenerate interval triggers the conflict check against an existing
pending/approved booking, and otherwise with the generic server error
produced by the `pre('save')` hook's plain `Error` — in neither case
with `ValidationFailed`. -/
theorem create_degenerate_no_persist (today : Nat) (st : St) (u : UserCtx)
    (req : CreateReq) (hallId dt s e : Nat) (h : Hall)
    (hhall : req.hall = some hallId) (hdate : req.date = some dt)
    (hstart : req.startTime = some s) (hend : req.endTime = some e)
    (hp : strFalsy req.purpose = false)
    (hfind : findHall st.halls hallId = some h)
    (havail : h.isAvailable = true)
    (hcap : (optNatTruthy req.expectedAttendees &&
      decide (h.capacity < req.expectedAttendees.getD 0)) = false)
    (hvalid : validateDoc today (mkBooking st u req hallId dt s e) = true)
    (hdeg : e ≤ s) :
    createBooking today st u req =
      ((if checkConflict st.bookings hallId dt s e none then
          Outcome.conflict
        else Outcome.serverError), st) ∧
    isValidationFailed (createBooking today st u req).1 = false := by
  have hmain : createBooking today st u req =
      ((if checkConflict st.bookings hallId dt s e none then
          Outcome.conflict
        else Outcome.serverError), st) := by
    by_cases hcc : checkConflict st.bookings hallId dt s e none = true
    · simp [createBooking, hhall, hdate, hstart, hend, hp, hfind, havail,
        hcap, hcc]
    · have hcc' : checkConflict st.bookings hallId dt s e none = false := by
        rwa [Bool.not_eq_true] at hcc
      simp [createBooking, hhall, hdate, hstart, hend, hp, hfind, havail,
        hcap, hcc', hvalid, hdeg]
  refine ⟨hmain, ?_⟩
  rw [hmain]
  by_cases hcc : checkConflict st.bookings hallId dt s e none = true
  · simp [hcc, isValidationFailed]
  · have hcc' : checkConflict st.bookings hallId dt s e none = false := by
      rwa [Bool.not_eq_true] at hcc
    simp [hcc', isValidationFailed]

/-- C5 amended witness: with no bookings stored, the degenerate request
draws the server error and the store is unchanged. -/
theorem create_degenerate_no_persist_witness :
    createBooking 0 stEmptyB fac1 reqDegenerate =
      ((if checkConflict stEmptyB.bookings 1 747 (hmmin 10 0) (hmmin 9 0)
          none then Outcome.conflict
        else Outcome.serverError), stEmptyB) ∧
    isValidationFailed (createBooking 0 stEmptyB fac1 reqDegenerate).1 =
      false :=
  create_degenerate_no_persist 0 stEmptyB fac1 reqDegenerate 1 747
    (hmmin 10 0) (hmmin 9 0) hall1 rfl rfl rfl rfl (by decide) (by decide)
    (by decide) (by decide) (by decide) (by decide)

/-- C9: `rejectBooking` checks the rejection reason before the booking
lookup, so a reason-less reject of a booking id that resolves to
nothing reports the missing reason (a `ValidationFailed`, 400), not
`NotFound`. -/
theorem reject_reason_before_lookup (today now : Nat) (st : St)
    (u : UserCtx) (bid : Nat)
    (_hmiss : findBooking st.bookings bid = none) :
    rejectBooking today now st u bid none =
      (Outcome.missingRejectionReason, st) ∧
    Outcome.missingRejectionReason ≠ Outcome.notFound ∧
    isValidationFailed Outcome.missingRejectionReason = true := by
  refine ⟨?_, by decide, by decide⟩
  simp [rejectBooking, strFalsy]

/-- C9 witness. -/
theorem reject_reason_before_lookup_witness :
    rejectBooking 0 9 stEmptyB admin1 999 none =
      (Outcome.missingRejectionReason, stEmptyB) ∧
    Outcome.missingRejectionReason ≠ Outcome.notFound ∧
    isValidationFailed Outcome.missingRejectionReason = true :=
  reject_reason_before_lookup 0 9 stEmptyB admin1 999 (by decide)

/-- C10: the `end > start` check lives in the `pre('save')` hook, which
runs on `Booking.create` and on the `save()` calls of the
approve/reject/cancel paths but not on the `findByIdAndUpdate` of the
edit path: editing the stored 09:00-10:00 booking's end time to 08:20
succeeds and persists `endMinutes ≤ startMinutes`, while the same
degenerate interval is refused at creation and a save of the degenerate
booking (here via cancel) errors. -/
theorem edit_skips_interval_check :
    (updateBooking 0 stA fac1 10 editShrinkEnd).1 = Outcome.ok ∧
    findBooking (updateBooking 0 stA fac1 10 editShrinkEnd).2.bookings 10 =
      some (applyUpdate bookingA (updateDataOf editShrinkEnd)) ∧
    (applyUpdate bookingA (updateDataOf editShrinkEnd)).endTime ≤
      (applyUpdate bookingA (updateDataOf editShrinkEnd)).startTime ∧
    (createBooking 0 stEmptyB fac1 reqDegenerate).1 =
      Outcome.serverError ∧
    (createBooking 0 stEmptyB fac1 reqDegenerate).2 = stEmptyB ∧
    (cancelBooking 0 stDeg fac1 10).1 = Outcome.serverError := by
  refine ⟨by decide, by decide, by decide, by decide, by decide, by decide⟩

/-- C3: approval re-runs the conflict check excluding the booking
itself, so across every sequential run of the operations the store
keeps the at-most-one-approved-per-hall/date/overlapping-interval
invariant; concretely, with the two overlapping pending bookings A
(id 10) and B (id 11) stored, after the approval attempt on A the
attempt to approve B fails with `Conflict` and B is unchanged (still
pending).  (In this code even A's own approval already fails with
`Conflict`, because the re-check also counts pending bookings.) -/
theorem approval_exclusive_invariant :
    (∀ (st : St) (ops : List Op), Inv st → Inv (run st ops)) ∧
    ((step (step stAB (Op.approve 0 50 admin1 10)).2
        (Op.approve 0 51 admin1 11)).1 = Outcome.conflict ∧
      findBooking (step (step stAB (Op.approve 0 50 admin1 10)).2
        (Op.approve 0 51 admin1 11)).2.bookings 11 = some bookingB ∧
      bookingB.status = BStatus.pending) :=
  ⟨fun st ops hinv => run_inv ops hinv, by decide, by decide, by decide⟩

/-- C3 witness: the invariant theorem applied to the concrete
two-pending-bookings store and the concrete approval sequence. -/
theorem approval_exclusive_invariant_witness :
    Inv stAB ∧
    Inv (run stAB [Op.approve 0 50 admin1 10, Op.approve 0 51 admin1 11]) :=
  ⟨by decide, approval_exclusive_invariant.1 stAB
    [Op.approve 0 50 admin1 10, Op.approve 0 51 admin1 11] (by decide)⟩

/-- C4 counterexample: `approveBooking` has no guard for the `rejected`
state, so approving the stored rejected booking (no other bookings
present) succeeds and moves it rejected → approved, contradicting both
"approve ... legal only from pending" and "no operation moves a booking
from one of approved/rejected/cancelled to a different one of those
states". -/
theorem approve_from_rejected_cex :
    bookingRejected.status = BStatus.rejected ∧
    (approveRoute 0 77 stRejected admin1 10).1 = Outcome.ok ∧
    findBooking (approveRoute 0 77 stRejected admin1 10).2.bookings 10 =
      some (approvedVersion bookingRejected admin1.id 77) ∧
    (approvedVersion bookingRejected admin1.id 77).status =
      BStatus.approved :=
  ⟨by decide, by decide, by decide, by decide⟩

/-- C4 amended: the state guards as implemented.  Approve is refused on
already-approved and on cancelled bookings, reject on already-rejected
and on cancelled bookings (no-op failures that leave the store
unchanged); but approve is permitted from `rejected` (moving it to
approved once the conflict re-check and save pass), reject is permitted
from `approved` (moving it to rejected), and cancel is permitted from
`rejected` — the only transitions the code forbids are the ones listed
above. -/
theorem transition_guards_as_implemented :
    (∀ (today now : Nat) (st : St) (u : UserCtx) (bid : Nat) (b : Booking),
      findBooking st.bookings bid = some b → b.status = .approved →
      approveBooking today now st u bid = (Outcome.alreadyApproved, st)) ∧
    (∀ (today now : Nat) (st : St) (u : UserCtx) (bid : Nat) (b : Booking),
      findBooking st.bookings bid = some b → b.status = .cancelled →
      approveBooking today now st u bid = (Outcome.cancelledApprove, st)) ∧
    (∀ (today now : Nat) (st : St) (u : UserCtx) (bid : Nat)
        (reason : Option String) (b : Booking), strFalsy reason = false →
      findBooking st.bookings bid = some b → b.status = .rejected →
      rejectBooking today now st u bid reason =
        (Outcome.alreadyRejected, st)) ∧
    (∀ (today now : Nat) (st : St) (u : UserCtx) (bid : Nat)
        (reason : Option String) (b : Booking), strFalsy reason = false →
      findBooking st.bookings bid = some b → b.status = .cancelled →
      rejectBooking today now st u bid reason =
        (Outcome.cancelledReject, st)) ∧
    (∀ (today now : Nat) (st : St) (u : UserCtx) (bid : Nat) (b : Booking),
      findBooking st.bookings bid = some b → b.status = .rejected →
      checkConflict st.bookings b.hall b.date b.startTime b.endTime
        (some bid) = false →
      saveDoc today (approvedVersion b u.id now) = true →
      (approveBooking today now st u bid).1 = Outcome.ok) ∧
    (∀ (today now : Nat) (st : St) (u : UserCtx) (bid : Nat)
        (reason : Option String) (b : Booking), strFalsy reason = false →
      findBooking st.bookings bid = some b → b.status = .approved →
      saveDoc today (rejectedVersion b u.id now reason) = true →
      (rejectBooking today now st u bid reason).1 = Outcome.ok) ∧
    (∀ (today : Nat) (st : St) (u : UserCtx) (bid : Nat) (b : Booking),
      findBooking st.bookings bid = some b →
      (u.role != Role.admin && b.bookedBy != u.id) = false →
      b.status = .rejected → saveDoc today (cancelledVersion b) = true →
      (cancelBooking today st u bid).1 = Outcome.ok) := by
  refine ⟨?_, ?_, ?_, ?_, ?_, ?_, ?_⟩
  · intro today now st u bid b hfind hst
    simp [approveBooking, hfind, hst]
  · intro today now st u bid b hfind hst
    simp [approveBooking, hfind, hst]
  · intro today now st u bid reason b hr hfind hst
    simp [rejectBooking, hr, hfind, hst]
  · intro today now st u bid reason b hr hfind hst
    simp [rejectBooking, hr, hfind, hst]
  · intro today now st u bid b hfind hst hcc hsave
    simp [approveBooking, hfind, hst, hcc, hsave]
  · intro today now st u bid reason b hr hfind hst hsave
    simp [rejectBooking, hr, hfind, hst, hsave]
  · intro today st u bid b hfind hauth hst hsave
    simp [cancelBooking, hfind, hauth, hst, hsave]

/-- C4 amended witness: each clause at a concrete store. -/
theorem transition_guards_witness :
    approveBooking 0 5 stApproved admin1 10 =
      (Outcome.alreadyApproved, stApproved) ∧
    approveBooking 0 5 stCancelled admin1 10 =
      (Outcome.cancelledApprove, stCancelled) ∧
    rejectBooking 0 5 stRejected admin1 10 (some "dup") =
      (Outcome.alreadyRejected, stRejected) ∧
    rejectBooking 0 5 stCancelled admin1 10 (some "dup") =
      (Outcome.cancelledReject, stCancelled) ∧
    (approveBooking 0 5 stRejected admin1 10).1 = Outcome.ok ∧
    (rejectBooking 0 5 stApproved admin1 10 (some "room needed")).1 =
      Outcome.ok ∧
    (cancelBooking 0 stRejected fac1 10).1 = Outcome.ok :=
  ⟨transition_guards_as_implemented.1 0 5 stApproved admin1 10
      bookingApproved (by decide) (by decide),
    transition_guards_as_implemented.2.1 0 5 stCancelled admin1 10
      bookingCancelled (by decide) (by decide),
    transition_guards_as_implemented.2.2.1 0 5 stRejected admin1 10
      (some "dup") bookingRejected (by decide) (by decide) (by decide),
    transition_guards_as_implemented.2.2.2.1 0 5 stCancelled admin1 10
      (some "dup") bookingCancelled (by decide) (by decide) (by decide),
    transition_guards_as_implemented.2.2.2.2.1 0 5 stRejected admin1 10
      bookingRejected (by decide) (by decide) (by decide) (by decide),
    transition_guards_as_implemented.2.2.2.2.2.1 0 5 stApproved admin1 10
      (some "room needed") bookingApproved (by decide) (by decide)
      (by decide) (by decide),
    transition_guards_as_implemented.2.2.2.2.2.2 0 stRejected fac1 10
      bookingRejected (by decide) (by decide) (by decide) (by decide)⟩

/-- For an admin caller neither authorization guard of the edit path
can fire, whatever the booking's state or creator. -/
lemma updateBooking_admin_no_auth_fail {today : Nat} {st : St} {u : UserCtx}
    {bid : Nat} {req : UpdateReq} (hrole : u.role = Role.admin) :
    (updateBooking today st u bid req).1 ≠ Outcome.forbidden ∧
    (updateBooking today st u bid req).1 ≠ Outcome.cannotUpdateApproved := by
  unfold updateBooking
  cases hfind : findBooking st.bookings bid with
  | none =>
    exact ⟨fun h => Outcome.noConfusion h, fun h => Outcome.noConfusion h⟩
  | some b =>
    dsimp only
    have h1 : (u.role != Role.admin && b.bookedBy != u.id) = false := by
      simp [hrole]
    have h2 : (b.status == BStatus.approved && u.role != Role.admin) =
        false := by
      simp [hrole]
    rw [if_neg (by simp [h1]), if_neg (by simp [h2])]
    cases hH : hallGuardOf st req with
    | some o =>
      rcases hallGuardOf_cases hH with rfl | rfl <;>
        exact ⟨fun h => Outcome.noConfusion h, fun h => Outcome.noConfusion h⟩
    | none =>
      cases hC : capGuardOf st b req with
      | some o =>
        rcases capGuardOf_cases hC with rfl | rfl <;>
          exact ⟨fun h => Outcome.noConfusion h,
            fun h => Outcome.noConfusion h⟩
      | none =>
        by_cases hcc : (timeFieldsSupplied req && checkConflict st.bookings
            (req.hall.getD b.hall) (req.date.getD b.date)
            (req.startTime.getD b.startTime) (req.endTime.getD b.endTime)
            (some bid)) = true
        · rw [if_pos hcc]
          exact ⟨fun h => Outcome.noConfusion h,
            fun h => Outcome.noConfusion h⟩
        · rw [if_neg hcc]
          by_cases hV : (!validUpdate today (updateDataOf req)) = true
          · rw [if_pos hV]
            exact ⟨fun h => Outcome.noConfusion h,
              fun h => Outcome.noConfusion h⟩
          · rw [if_neg hV]
            exact ⟨fun h => Outcome.noConfusion h,
              fun h => Outcome.noConfusion h⟩

/-- C6 counterexample: a non-admin editing their own approved booking
is refused, but with the 400 "Cannot update approved booking" response,
not the 403 Forbidden that the claim names (and that the code's actual
authorization refusals use). -/
theorem nonadmin_edit_approved_cex :
    (updateBooking 0 stApproved fac1 10 editPurposeOnly).1 =
      Outcome.cannotUpdateApproved ∧
    Outcome.cannotUpdateApproved ≠ Outcome.forbidden ∧
    httpStatus Outcome.cannotUpdateApproved = 400 ∧
    httpStatus Outcome.forbidden = 403 :=
  ⟨by decide, by decide, by decide, by decide⟩

/-- C6 amended: authorization as enforced.  Approve/reject/delete are
admin-only (a non-admin gets Forbidden 403 from the route middleware,
even on their own booking); edit and cancel require the owner or an
admin (Forbidden 403 otherwise); a non-admin editing their own approved
booking is refused with the 400 "cannot update approved booking"
response (not a 403); an admin is never blocked by either edit
authorization guard, whatever the booking's state or creator. -/
theorem authorization_guards :
    (∀ (today now : Nat) (st : St) (u : UserCtx) (bid : Nat),
      u.role ≠ .admin →
      approveRoute today now st u bid = (Outcome.forbidden, st)) ∧
    (∀ (today now : Nat) (st : St) (u : UserCtx) (bid : Nat)
        (reason : Option String), u.role ≠ .admin →
      rejectRoute today now st u bid reason = (Outcome.forbidden, st)) ∧
    (∀ (st : St) (u : UserCtx) (bid : Nat), u.role ≠ .admin →
      deleteRoute st u bid = (Outcome.forbidden, st)) ∧
    (∀ (today : Nat) (st : St) (u : UserCtx) (bid : Nat) (req : UpdateReq)
        (b : Booking), findBooking st.bookings bid = some b →
      u.role ≠ .admin → b.bookedBy ≠ u.id →
      updateBooking today st u bid req = (Outcome.forbidden, st)) ∧
    (∀ (today : Nat) (st : St) (u : UserCtx) (bid : Nat) (b : Booking),
      findBooking st.bookings bid = some b →
      u.role ≠ .admin → b.bookedBy ≠ u.id →
      cancelBooking today st u bid = (Outcome.forbidden, st)) ∧
    (∀ (today : Nat) (st : St) (u : UserCtx) (bid : Nat) (req : UpdateReq)
        (b : Booking), findBooking st.bookings bid = some b →
      u.role ≠ .admin → b.bookedBy = u.id → b.status = .approved →
      updateBooking today st u bid req =
        (Outcome.cannotUpdateApproved, st) ∧
      httpStatus Outcome.cannotUpdateApproved = 400) ∧
    (∀ (today : Nat) (st : St) (u : UserCtx) (bid : Nat) (req : UpdateReq),
      u.role = .admin →
      (updateBooking today st u bid req).1 ≠ Outcome.forbidden ∧
      (updateBooking today st u bid req).1 ≠
        Outcome.cannotUpdateApproved) := by
  refine ⟨?_, ?_, ?_, ?_, ?_, ?_, ?_⟩
  · intro today now st u bid hrole
    unfold approveRoute requireAdmin
    rw [if_pos (by simp [hrole])]
  · intro today now st u bid reason hrole
    unfold rejectRoute requireAdmin
    rw [if_pos (by simp [hrole])]
  · intro st u bid hrole
    unfold deleteRoute requireAdmin
    rw [if_pos (by simp [hrole])]
  · intro today st u bid req b hfind hrole howner
    simp [updateBooking, hfind, hrole, howner]
  · intro today st u bid b hfind hrole howner
    simp [cancelBooking, hfind, hrole, howner]
  · intro today st u bid req b hfind hrole howner hst
    exact ⟨by simp [updateBooking, hfind, hrole, howner, hst], by decide⟩
  · intro today st u bid req hrole
    exact updateBooking_admin_no_auth_fail hrole

/-- C6 amended witness. -/
theorem authorization_guards_witness :
    approveRoute 0 5 stA fac1 10 = (Outcome.forbidden, stA) ∧
    rejectRoute 0 5 stA fac1 10 (some "no") = (Outcome.forbidden, stA) ∧
    deleteRoute stA fac1 10 = (Outcome.forbidden, stA) ∧
    updateBooking 0 stB fac1 11 editPurposeOnly =
      (Outcome.forbidden, stB) ∧
    cancelBooking 0 stB fac1 11 = (Outcome.forbidden, stB) ∧
    (updateBooking 0 stApproved fac1 10 editPurposeOnly =
        (Outcome.cannotUpdateApproved, stApproved) ∧
      httpStatus Outcome.cannotUpdateApproved = 400) ∧
    ((updateBooking 0 stApproved admin1 10 editPurposeOnly).1 ≠
        Outcome.forbidden ∧
      (updateBooking 0 stApproved admin1 10 editPurposeOnly).1 ≠
        Outcome.cannotUpdateApproved) :=
  ⟨authorization_guards.1 0 5 stA fac1 10 (by decide),
    authorization_guards.2.1 0 5 stA fac1 10 (some "no") (by decide),
    authorization_guards.2.2.1 stA fac1 10 (by decide),
    authorization_guards.2.2.2.1 0 stB fac1 11 editPurposeOnly bookingB
      (by decide) (by decide) (by decide),
    authorization_guards.2.2.2.2.1 0 stB fac1 11 bookingB (by decide)
      (by decide) (by decide),
    authorization_guards.2.2.2.2.2.1 0 stApproved fac1 10 editPurposeOnly
      bookingApproved (by decide) (by decide) (by decide) (by decide),
    authorization_guards.2.2.2.2.2.2 0 stApproved admin1 10 editPurposeOnly
      (by decide)⟩

/-- C7: rejecting with a missing (falsy) reason fails with the
missing-reason validation error; rejecting a cancelled booking fails
with the cannot-reject-cancelled invalid transition; a successful
rejection stores the rejected status together with the acting admin's
identity, the timestamp, and the supplied reason. -/
theorem reject_guards_and_effects :
    (∀ (today now : Nat) (st : St) (u : UserCtx) (bid : Nat),
      rejectBooking today now st u bid none =
        (Outcome.missingRejectionReason, st) ∧
      isValidationFailed Outcome.missingRejectionReason = true) ∧
    (∀ (today now : Nat) (st : St) (u : UserCtx) (bid : Nat)
        (reason : Option String) (b : Booking), strFalsy reason = false →
      findBooking st.bookings bid = some b → b.status = .cancelled →
      rejectBooking today now st u bid reason =
        (Outcome.cancelledReject, st) ∧
      isInvalidTransition Outcome.cancelledReject = true) ∧
    (∀ (today now : Nat) (st : St) (u : UserCtx) (bid : Nat)
        (reason : Option String) (b : Booking), strFalsy reason = false →
      findBooking st.bookings bid = some b →
      b.status ≠ .rejected → b.status ≠ .cancelled →
      saveDoc today (rejectedVersion b u.id now reason) = true →
      (rejectBooking today now st u bid reason).1 = Outcome.ok ∧
      findBooking (rejectBooking today now st u bid reason).2.bookings
        bid = some (rejectedVersion b u.id now reason) ∧
      (rejectedVersion b u.id now reason).status = .rejected ∧
      (rejectedVersion b u.id now reason).approvedBy = some u.id ∧
      (rejectedVersion b u.id now reason).approvalDate = some now ∧
      (rejectedVersion b u.id now reason).rejectionReason = reason) := by
  refine ⟨?_, ?_, ?_⟩
  · intro today now st u bid
    exact ⟨by simp [rejectBooking, strFalsy], by decide⟩
  · intro today now st u bid reason b hr hfind hst
    exact ⟨by simp [rejectBooking, hr, hfind, hst], by decide⟩
  · intro today now st u bid reason b hr hfind hrj hcl hsave
    have h1 : (b.status == BStatus.rejected) = false :=
      beq_eq_false_iff_ne.mpr hrj
    have h2 : (b.status == BStatus.cancelled) = false :=
      beq_eq_false_iff_ne.mpr hcl
    have hmain : rejectBooking today now st u bid reason =
        (Outcome.ok, { st with bookings := st.bookings.map (fun c =>
          if c.id == bid then rejectedVersion b u.id now reason
          else c) }) := by
      simp [rejectBooking, hr, hfind, h1, h2, hsave]
    refine ⟨by rw [hmain], ?_, by simp [rejectedVersion],
      by simp [rejectedVersion], by simp [rejectedVersion],
      by simp [rejectedVersion]⟩
    rw [hmain]
    exact findBooking_map_ite
      (fun x hx => by
        simpa [rejectedVersion] using (findBooking_spec hfind).2) hfind

/-- C7 witness. -/
theorem reject_guards_and_effects_witness :
    (rejectBooking 0 7 stA admin1 10 none =
        (Outcome.missingRejectionReason, stA) ∧
      isValidationFailed Outcome.missingRejectionReason = true) ∧
    (rejectBooking 0 7 stCancelled admin1 10 (some "late") =
        (Outcome.cancelledReject, stCancelled) ∧
      isInvalidTransition Outcome.cancelledReject = true) ∧
    ((rejectBooking 0 7 stA admin1 10 (some "late")).1 = Outcome.ok ∧
      findBooking (rejectBooking 0 7 stA admin1 10 (some "late")).2.bookings
        10 = some (rejectedVersion bookingA admin1.id 7 (some "late")) ∧
      (rejectedVersion bookingA admin1.id 7 (some "late")).status =
        .rejected ∧
      (rejectedVersion bookingA admin1.id 7 (some "late")).approvedBy =
        some admin1.id ∧
      (rejectedVersion bookingA admin1.id 7 (some "late")).approvalDate =
        some 7 ∧
      (rejectedVersion bookingA admin1.id 7 (some "late")).rejectionReason =
        some "late") :=
  ⟨reject_guards_and_effects.1 0 7 stA admin1 10,
    reject_guards_and_effects.2.1 0 7 stCancelled admin1 10 (some "late")
      bookingCancelled (by decide) (by decide) (by decide),
    reject_guards_and_effects.2.2 0 7 stA admin1 10 (some "late") bookingA
      (by decide) (by decide) (by decide) (by decide) (by decide)⟩

/-- C8 counterexample: an edit that supplies a start time equal to the
stored one (so it changes none of hall/date/startTime/endTime) together
with a new purpose still resets the approved booking to `pending` and
clears the approver fields — the reset keys on field *presence* in the
request, not on an actual change of value. -/
theorem edit_same_time_resets_cex :
    editSameStart.hall = none ∧ editSameStart.date = none ∧
    editSameStart.endTime = none ∧
    editSameStart.startTime = some bookingApproved.startTime ∧
    bookingApproved.status = BStatus.approved ∧
    (updateBooking 0 stApproved admin1 10 editSameStart).1 = Outcome.ok ∧
    findBooking
      (updateBooking 0 stApproved admin1 10 editSameStart).2.bookings 10 =
      some (applyUpdate bookingApproved (updateDataOf editSameStart)) ∧
    (applyUpdate bookingApproved (updateDataOf editSameStart)).status =
      BStatus.pending ∧
    (applyUpdate bookingApproved (updateDataOf editSameStart)).approvedBy =
      none ∧
    (applyUpdate bookingApproved
      (updateDataOf editSameStart)).approvalDate = none :=
  ⟨by decide, by decide, by decide, by decide, by decide, by decide,
    by decide, by decide, by decide, by decide⟩

/-- C8 amended: a successful edit persists exactly
`applyUpdate b (updateDataOf req)` for the stored booking `b`; when the
request *supplies* any of hall/date/startTime/endTime (even with an
unchanged value) the result is `pending` with approver identity and
approval date cleared; when it supplies none of them, status, approver,
approval date, hall, date, both times and the rejection reason are
untouched and only the descriptive fields move. -/
theorem edit_frame_effects :
    (∀ (today : Nat) (st : St) (u : UserCtx) (bid : Nat) (req : UpdateReq)
        (b : Booking), findBooking st.bookings bid = some b →
      (updateBooking today st u bid req).1 = Outcome.ok →
      findBooking (updateBooking today st u bid req).2.bookings bid =
        some (applyUpdate b (updateDataOf req))) ∧
    (∀ (req : UpdateReq) (b : Booking), timeFieldsSupplied req = true →
      (applyUpdate b (updateDataOf req)).status = .pending ∧
      (applyUpdate b (updateDataOf req)).approvedBy = none ∧
      (applyUpdate b (updateDataOf req)).approvalDate = none) ∧
    (∀ (req : UpdateReq) (b : Booking), timeFieldsSupplied req = false →
      (applyUpdate b (updateDataOf req)).status = b.status ∧
      (applyUpdate b (updateDataOf req)).approvedBy = b.approvedBy ∧
      (applyUpdate b (updateDataOf req)).approvalDate = b.approvalDate ∧
      (applyUpdate b (updateDataOf req)).hall = b.hall ∧
      (applyUpdate b (updateDataOf req)).date = b.date ∧
      (applyUpdate b (updateDataOf req)).startTime = b.startTime ∧
      (applyUpdate b (updateDataOf req)).endTime = b.endTime ∧
      (applyUpdate b (updateDataOf req)).rejectionReason =
        b.rejectionReason) := by
  refine ⟨?_, ?_, ?_⟩
  · intro today st u bid req b hfind hok
    unfold updateBooking at hok ⊢
    rw [hfind] at hok ⊢
    dsimp only at hok ⊢
    by_cases hF : (u.role != Role.admin && b.bookedBy != u.id) = true
    · rw [if_pos hF] at hok; exact Outcome.noConfusion hok
    · rw [if_neg hF] at hok ⊢
      by_cases hU : (b.status == BStatus.approved &&
          u.role != Role.admin) = true
      · rw [if_pos hU] at hok; exact Outcome.noConfusion hok
      · rw [if_neg hU] at hok ⊢
        cases hH : hallGuardOf st req with
        | some o =>
          rw [hH] at hok
          rcases hallGuardOf_cases hH with rfl | rfl <;>
            exact Outcome.noConfusion hok
        | none =>
          rw [hH] at hok
          dsimp only at hok
          cases hC : capGuardOf st b req with
          | some o =>
            rw [hC] at hok
            rcases capGuardOf_cases hC with rfl | rfl <;>
              exact Outcome.noConfusion hok
          | none =>
            rw [hC] at hok
            dsimp only at hok
            by_cases hcc : (timeFieldsSupplied req &&
                checkConflict st.bookings (req.hall.getD b.hall)
                  (req.date.getD b.date) (req.startTime.getD b.startTime)
                  (req.endTime.getD b.endTime) (some bid)) = true
            · rw [if_pos hcc] at hok; exact Outcome.noConfusion hok
            · rw [if_neg hcc] at hok ⊢
              by_cases hV : (!validUpdate today (updateDataOf req)) = true
              · rw [if_pos hV] at hok; exact Outcome.noConfusion hok
              · rw [if_neg hV] at hok ⊢
                exact findBooking_map_ite (fun x hx => hx) hfind
  · intro req b hts
    simp [applyUpdate, updateDataOf, hts]
  · intro req b hts
    obtain ⟨hh, hd, hs, he⟩ := timeFields_none hts
    simp [applyUpdate, updateDataOf, hts, hh, hd, hs, he]

/-- C8 amended witness. -/
theorem edit_frame_effects_witness :
    findBooking (updateBooking 0 stA fac1 10 editPurposeOnly).2.bookings
      10 = some (applyUpdate bookingA (updateDataOf editPurposeOnly)) ∧
    ((applyUpdate bookingApproved (updateDataOf editSameStart)).status =
        .pending ∧
      (applyUpdate bookingApproved (updateDataOf editSameStart)).approvedBy =
        none ∧
      (applyUpdate bookingApproved
        (updateDataOf editSameStart)).approvalDate = none) ∧
    ((applyUpdate bookingApproved (updateDataOf editPurposeOnly)).status =
        bookingApproved.status ∧
      (applyUpdate bookingApproved
        (updateDataOf editPurposeOnly)).approvedBy =
        bookingApproved.approvedBy ∧
      (applyUpdate bookingApproved
        (updateDataOf editPurposeOnly)).approvalDate =
        bookingApproved.approvalDate ∧
      (applyUpdate bookingApproved (updateDataOf editPurposeOnly)).hall =
        bookingApproved.hall ∧
      (applyUpdate bookingApproved (updateDataOf editPurposeOnly)).date =
        bookingApproved.date ∧
      (applyUpdate bookingApproved
        (updateDataOf editPurposeOnly)).startTime =
        bookingApproved.startTime ∧
      (applyUpdate bookingApproved (updateDataOf editPurposeOnly)).endTime =
        bookingApproved.endTime ∧
      (applyUpdate bookingApproved
        (updateDataOf editPurposeOnly)).rejectionReason =
        bookingApproved.rejectionReason) :=
  ⟨edit_frame_effects.1 0 stA fac1 10 editPurposeOnly bookingA (by decide)
      (by decide),
    edit_frame_effects.2.1 editSameStart bookingApproved (by decide),
    edit_frame_effects.2.2 editPurposeOnly bookingApproved (by decide)⟩

end HallMgmt
